import Mathlib

/-!
A verification development for the Go todo-API backend
(`github.com/bhaskar/todo-api`): a shallow embedding, in Lean 4, of the
authentication subsystem (token codec, authentication service,
authorization gate) and of the ownership-scoped todo service, with
theorems settling the specified properties.

Conventions of the embedding:
* Go `(T, error)` returns become `Except String T`; the `String` is the
  Go error message (`err.Error()`).
* The persistence layer (GORM over SQLite/PostgreSQL) becomes explicit
  state passing over Lean lists of records; GORM-managed
  created-at/updated-at timestamps and the soft-delete marker are
  omitted, since no query in scope reads them (soft-deleted rows are
  invisible to every query, so deletion is modelled as removal).
* Go `uint` IDs become `Nat`; Go `time.Time`/`time.Duration` instants
  and durations become `Int` (an absolute clock must be a parameter,
  so `now` is passed explicitly where the Go code calls `time.Now()`).
* bcrypt is an external primitive: hashing is a parameter
  `bhash : String → String`, and verification a parameter
  `bverify : String → String → Bool` (hash first, candidate second,
  mirroring `bcrypt.CompareHashAndPassword(hash, password)`).
-/

/-! ## Data model (internal/models) -/

/-- `models.User` (internal/models/user.go): unique integer identifier,
unique email, bcrypt password hash. GORM timestamps and `DeletedAt`
omitted (managed by the persistence layer, read by no operation in
scope); the `Todos` association is a query artifact, not stored state. -/
structure User where
  id : Nat
  email : String
  password : String
deriving DecidableEq, Repr

/-- `models.UserResponse`: the safe outward representation (`ToResponse`);
`CreatedAt` omitted with the other timestamps. -/
structure UserResponse where
  id : Nat
  email : String
deriving DecidableEq, Repr

/-- `User.ToResponse` (internal/models/user.go). -/
def User.toResponse (u : User) : UserResponse :=
  { id := u.id, email := u.email }

/-- `models.Todo` (internal/models/todo.go): identifier, payload fields,
owning user ID. Timestamps and `DeletedAt` omitted as for `User`;
`DueDate *time.Time` becomes `Option Int`. -/
structure Todo where
  id : Nat
  title : String
  description : String
  completed : Bool
  priority : String
  dueDate : Option Int
  userID : Nat
deriving DecidableEq, Repr

/-- `models.TodoResponse` (internal/models/todo.go). -/
structure TodoResponse where
  id : Nat
  title : String
  description : String
  completed : Bool
  priority : String
  dueDate : Option Int
deriving DecidableEq, Repr

/-- `Todo.ToResponse` (internal/models/todo.go). -/
def Todo.toResponse (t : Todo) : TodoResponse :=
  { id := t.id, title := t.title, description := t.description,
    completed := t.completed, priority := t.priority, dueDate := t.dueDate }

/-- `models.UpdateTodoRequest` (internal/models/todo.go): every field a
Go pointer, `nil` = field not supplied; embedded as `Option`. -/
structure UpdateTodoRequest where
  title : Option String
  description : Option String
  completed : Option Bool
  priority : Option String
  dueDate : Option Int
deriving DecidableEq, Repr

/-! ## Token codec (pkg/utils/jwt.go — src/unnamed/part_004)

`JWTManager` and its two methods are translated from the source
(part_004 lines 10–70). The codec delegates serialization, HMAC signing
and parsing to the external `github.com/golang-jwt/jwt/v5` library and
Go's crypto, and those external primitives are embedded symbolically:
a token string is a `Token` value — either a decodable
algorithm/payload/signature triple or an undecodable string — and the
HMAC tag is a perfect MAC, determined by signing secret, algorithm and
payload and verified by recomputing and comparing. The jwt/v5 parse
pipeline that `ValidateToken` delegates to returns distinct,
cause-revealing sentinel errors; the embedding keeps one error
constant per cause, with the library's wrapped message texts. -/

/-- `utils.JWTClaims` (part_004 lines 10–15): user ID and email plus
the embedded `jwt.RegisteredClaims` fields the code sets — issuer,
issued-at, not-before, expires-at (the remaining registered fields are
never set and are omitted). -/
structure JWTClaims where
  userID : Nat
  email : String
  issuer : String
  issuedAt : Int
  notBefore : Int
  expiresAt : Int
deriving DecidableEq, Repr

/-- The HMAC signature over header+payload, embedded symbolically
(perfect MAC): a tag is determined by the signing secret, the declared
algorithm and the signed payload, and verification recomputes the tag
and compares for equality — it validates exactly when secret,
algorithm and payload all match. -/
structure MacTag where
  secret : String
  alg : String
  payload : JWTClaims
deriving DecidableEq, Repr

/-- A token string, embedded symbolically: either a well-formed signed
serialization (declared algorithm, claims payload, signature) or a
string on which structural decoding fails (`malformed`). -/
inductive Token where
  | wellFormed (alg : String) (payload : JWTClaims) (sig : MacTag)
  | malformed (raw : String)
deriving DecidableEq, Repr

/-- `utils.JWTManager` (part_004 lines 17–31): configured secret
(Go `[]byte`, embedded as `String`), token time-to-live and issuer;
constructor `NewJWTManager(secret, expiry, issuer)`. -/
structure JWTManager where
  secret : String
  expiry : Int
  issuer : String
deriving DecidableEq, Repr

/-- The algorithm name `jwt.SigningMethodHS256` (part_004 line 46)
writes into a generated token's header. -/
def hmacAlg : String := "HS256"

/-- The algorithm names of the `*jwt.SigningMethodHMAC` family accepted
by the keyfunc's type assertion (part_004 line 54). -/
def hmacAlgs : List String := ["HS256", "HS384", "HS512"]

/-- The jwt/v5 parse error on a token that does not structurally
decode (`jwt.ErrTokenMalformed`). -/
def errTokenMalformed : String := "token is malformed"

/-- The keyfunc failure of part_004 line 55 as jwt/v5 wraps it
(`jwt.ErrTokenUnverifiable` around the keyfunc's own error): a token
whose declared signing method is not HMAC. -/
def errKeyfuncInvalidMethod : String :=
  "token is unverifiable: error while executing keyfunc: invalid signing method"

/-- The jwt/v5 error on a signature that does not verify
(`jwt.ErrTokenSignatureInvalid`). -/
def errTokenSignatureInvalid : String := "token signature is invalid"

/-- The jwt/v5 claims-validation error for an expired token
(`jwt.ErrTokenInvalidClaims` wrapping `jwt.ErrTokenExpired`). -/
def errTokenExpired : String := "token has invalid claims: token is expired"

/-- The jwt/v5 claims-validation error for a token used before its
not-before instant (`jwt.ErrTokenInvalidClaims` wrapping
`jwt.ErrTokenNotValidYet`). -/
def errTokenNotValidYet : String :=
  "token has invalid claims: token is not valid yet"

/-- `JWTManager.GenerateToken` (part_004 lines 34–48): the claims carry
the user ID and email with expires-at = now + expiry, issued-at = now,
not-before = now and the configured issuer; the token is signed with
`jwt.SigningMethodHS256` over the configured secret.
`token.SignedString` cannot fail for an HMAC method with a `[]byte`
key, so the embedding is total. -/
def JWTManager.GenerateToken (m : JWTManager) (now : Int) (userID : Nat)
    (email : String) : Token :=
  let claims : JWTClaims :=
    { userID := userID, email := email, issuer := m.issuer,
      issuedAt := now, notBefore := now, expiresAt := now + m.expiry }
  Token.wellFormed hmacAlg claims
    { secret := m.secret, alg := hmacAlg, payload := claims }

/-- `JWTManager.ValidateToken` (part_004 lines 51–70):
`jwt.ParseWithClaims` with a keyfunc that rejects non-HMAC signing
methods. The jwt/v5 parse pipeline checks, in order: structural
decoding (`errTokenMalformed`), the keyfunc (`errKeyfuncInvalidMethod`
for a non-HMAC method), the signature (`errTokenSignatureInvalid`),
then claims validity (`errTokenExpired` / `errTokenNotValidYet`); the
expiry check accepts now = expires-at and the not-before check accepts
now = not-before, as the jwt/v5 validator does. Every parse failure is
returned to the caller verbatim (line 61), so the causes remain
distinguishable. The cast-and-`token.Valid` check of lines 64–67 is
unreachable after a nil parse error in jwt/v5 and does not appear.
When both time checks fail at once jwt/v5 joins the two claim errors
into one message; the embedding returns the expiry error first — the
two agree whenever at most one time check fails, which is every
integer instant even for the empty window of a negative ttl. -/
def JWTManager.ValidateToken (m : JWTManager) (now : Int) (tok : Token) :
    Except String JWTClaims :=
  match tok with
  | Token.malformed _ => Except.error errTokenMalformed
  | Token.wellFormed alg payload sig =>
    if ¬ alg ∈ hmacAlgs then Except.error errKeyfuncInvalidMethod
    else if ¬ sig = { secret := m.secret, alg := alg, payload := payload } then
      Except.error errTokenSignatureInvalid
    else if payload.expiresAt < now then Except.error errTokenExpired
    else if now < payload.notBefore then Except.error errTokenNotValidYet
    else Except.ok payload

/-! ## Credential store (UserRepository)

`internal/repository/user_repository.go` is not among the provided
sources (only `todo_repository.go` is); its operations are modelled from
the spec: the Credential Store is "a key-value-by-ID store with a
secondary unique index on email", exposing `find_by_email`, `find_by_id`,
`insert`, `exists_by_email`, with "email uniqueness enforced at
persistence layer" — the store is the authority and its insert fails
with a uniqueness-violation error on a duplicate email. The store state
is a list of `User` records; a fresh insert is assigned the next
integer identifier. -/

/-- Modelled from the spec: `UserRepository.ExistsByEmail`. -/
def UserRepository.ExistsByEmail (db : List User) (email : String) : Bool :=
  db.any (fun u => u.email = email)

/-- Modelled from the spec: `UserRepository.FindByEmail`; `none` when no
record carries the email (the Go method returns `nil, nil` on
`gorm.ErrRecordNotFound`, as `todo_repository.go` does for todos). -/
def UserRepository.FindByEmail (db : List User) (email : String) :
    Option User :=
  db.find? (fun u => u.email = email)

/-- Modelled from the spec: the uniqueness-violation error the
persistence layer raises when an insert hits the unique email index
(SQLite wording; the exact text is driver-specific, but it is the
driver's text, not the Authentication Service's `"email already
registered"` message). -/
def uniqueViolationMsg : String := "UNIQUE constraint failed: users.email"

/-- Modelled from the spec: `UserRepository.Create` — insert a new
Identity, assigning the next integer identifier; the unique email index
makes the insert fail on a duplicate email. Returns the stored record
and the new store state. -/
def UserRepository.Create (db : List User) (email password : String) :
    Except String (User × List User) :=
  if UserRepository.ExistsByEmail db email then
    Except.error uniqueViolationMsg
  else
    let u : User := { id := db.length + 1, email := email, password := password }
    Except.ok (u, db ++ [u])

/-! ## Authentication service (internal/services — src/unnamed/part_000) -/

/-- `services.RegisterRequest`. -/
structure RegisterRequest where
  email : String
  password : String
deriving DecidableEq, Repr

/-- `services.LoginRequest`. -/
structure LoginRequest where
  email : String
  password : String
deriving DecidableEq, Repr

/-- `services.AuthResponse`: user summary plus issued token. -/
structure AuthResponse where
  user : UserResponse
  token : Token
deriving DecidableEq, Repr

/-- The error message `AuthService.Register` returns when its
email-uniqueness pre-check finds the email taken. -/
def emailTakenMsg : String := "email already registered"

/-- The error message `AuthService.Login` returns on unknown email and
on password mismatch alike. -/
def invalidCredentialsMsg : String := "invalid email or password"

/-- `AuthService.Register` (part_000 lines 45–81), with the two
persistence reads distinguished: the email pre-check reads `dbCheck` and
the insert runs against `dbCreate`. In an uncontended run the two are
the same store (`AuthService.Register` below); letting them differ
captures the interleaving in which another registration commits between
the pre-check and the insert, which is the one concurrent race the spec
discusses. Steps, as in the source: pre-check `ExistsByEmail` (taken →
error `emailTakenMsg`, store untouched); hash the password; `Create` the
user (an insert error is returned as-is, store untouched); issue a token
bound to the stored record's ID and email (HMAC signing is total, so
the source's dead error branch after `GenerateToken` drops out).
Returns the Go `(resp, err)` pair as an `Except`, plus the store after
the call. -/
def AuthService.RegisterWith (m : JWTManager) (now : Int)
    (bhash : String → String) (dbCheck dbCreate : List User)
    (req : RegisterRequest) : Except String AuthResponse × List User :=
  if UserRepository.ExistsByEmail dbCheck req.email then
    (Except.error emailTakenMsg, dbCreate)
  else
    let hashedPassword := bhash req.password
    match UserRepository.Create dbCreate req.email hashedPassword with
    | Except.error e => (Except.error e, dbCreate)
    | Except.ok (user, db') =>
      let token := m.GenerateToken now user.id user.email
      (Except.ok { user := user.toResponse, token := token }, db')

/-- `AuthService.Register` (part_000 lines 45–81): the uncontended
sequential run, both persistence calls against the same store. -/
def AuthService.Register (m : JWTManager) (now : Int)
    (bhash : String → String) (db : List User) (req : RegisterRequest) :
    Except String AuthResponse × List User :=
  AuthService.RegisterWith m now bhash db db req

/-- `AuthService.Login` (part_000 lines 84–109): look up by email
(absent → `invalidCredentialsMsg`); verify the password against the
stored hash (mismatch → the same `invalidCredentialsMsg`); issue a
token. Reads only, so no store state is returned. -/
def AuthService.Login (m : JWTManager) (now : Int)
    (bverify : String → String → Bool) (db : List User)
    (req : LoginRequest) : Except String AuthResponse :=
  match UserRepository.FindByEmail db req.email with
  | none => Except.error invalidCredentialsMsg
  | some user =>
    if bverify user.password req.password then
      let token := m.GenerateToken now user.id user.email
      Except.ok { user := user.toResponse, token := token }
    else Except.error invalidCredentialsMsg

/-! ## Register HTTP handler (internal/handlers — src/unnamed/part_001) -/

/-- The observable HTTP outcome of the register endpoint: 201 Created,
409 Conflict (`utils.ConflictError`), or 500 Internal
(`utils.InternalError`). -/
inductive RegisterHttpOutcome where
  | created (resp : AuthResponse)
  | conflict (msg : String)
  | internalErr (msg : String)
deriving DecidableEq, Repr

/-- `AuthHandler.Register`'s error mapping (part_001 lines 39–49): a
service error whose text equals `emailTakenMsg` becomes 409 Conflict;
every other service error becomes 500 Internal with the generic
"Failed to register user" body. -/
def AuthHandler.RegisterOutcome (result : Except String AuthResponse) :
    RegisterHttpOutcome :=
  match result with
  | Except.ok resp => RegisterHttpOutcome.created resp
  | Except.error e =>
    if e = emailTakenMsg then RegisterHttpOutcome.conflict e
    else RegisterHttpOutcome.internalErr "Failed to register user"

/-! ## Todo repository (internal/repository/todo_repository.go) -/

/-- `TodoRepository.FindByIDAndUserID` (todo_repository.go lines 37–44):
one lookup predicate over both the resource ID and the owning user ID;
`nil, nil` on `gorm.ErrRecordNotFound` becomes `none`. -/
def TodoRepository.FindByIDAndUserID (db : List Todo) (id userID : Nat) :
    Option Todo :=
  db.find? (fun t => t.id = id ∧ t.userID = userID)

/-- `TodoRepository.Update` (todo_repository.go lines 89–91): GORM
`Save` writes the record at its primary key. -/
def TodoRepository.Update (db : List Todo) (todo : Todo) : List Todo :=
  db.map (fun t => if t.id = todo.id then todo else t)

/-- `TodoRepository.Delete` (todo_repository.go lines 94–96): soft-delete
by primary key alone (no owner in the predicate); since soft-deleted
rows are invisible to every query, modelled as removal. -/
def TodoRepository.Delete (db : List Todo) (id : Nat) : List Todo :=
  db.filter (fun t => ¬ t.id = id)

/-! ## Todo service (internal/services/todo_service.go) -/

/-- The error message the todo service returns whenever
`FindByIDAndUserID` finds nothing — for an unknown ID and for an ID
owned by a different user alike. -/
def todoNotFoundMsg : String := "todo not found"

/-- `TodoService.GetByID` (todo_service.go lines 46–57): ownership-scoped
lookup; `none` → `todoNotFoundMsg`, otherwise the todo's response form. -/
def TodoService.GetByID (db : List Todo) (todoID userID : Nat) :
    Except String TodoResponse :=
  match TodoRepository.FindByIDAndUserID db todoID userID with
  | none => Except.error todoNotFoundMsg
  | some todo => Except.ok todo.toResponse

/-- The apply-updates block of `TodoService.Update` (todo_service.go
lines 83–98): each request field that is present overwrites the
corresponding todo field; absent fields leave it untouched. -/
def TodoService.applyUpdates (todo : Todo) (req : UpdateTodoRequest) : Todo :=
  let todo := match req.title with
    | some v => { todo with title := v } | none => todo
  let todo := match req.description with
    | some v => { todo with description := v } | none => todo
  let todo := match req.completed with
    | some v => { todo with completed := v } | none => todo
  let todo := match req.priority with
    | some v => { todo with priority := v } | none => todo
  match req.dueDate with
    | some v => { todo with dueDate := some v } | none => todo

/-- `TodoService.Update` (todo_service.go lines 73–106): ownership-scoped
lookup (`none` → `todoNotFoundMsg`), apply the supplied fields, save.
Returns the response and the store after the call. -/
def TodoService.Update (db : List Todo) (todoID userID : Nat)
    (req : UpdateTodoRequest) : Except String (TodoResponse × List Todo) :=
  match TodoRepository.FindByIDAndUserID db todoID userID with
  | none => Except.error todoNotFoundMsg
  | some todo =>
    let todo := TodoService.applyUpdates todo req
    Except.ok (todo.toResponse, TodoRepository.Update db todo)

/-- `TodoService.Delete` (todo_service.go lines 109–120): ownership-scoped
lookup first (`none` → `todoNotFoundMsg`), then the plain delete by ID. -/
def TodoService.Delete (db : List Todo) (todoID userID : Nat) :
    Except String (List Todo) :=
  match TodoRepository.FindByIDAndUserID db todoID userID with
  | none => Except.error todoNotFoundMsg
  | some _ => Except.ok (TodoRepository.Delete db todoID)

/-! ## Authorization gate (internal/middleware/auth.go)

The middleware manipulates the raw header string character by
character, so here Go strings are embedded as `List Char`. The token
verifier is a parameter (`validate`), standing for
`jwtManager.ValidateToken` on the serialized token string; the gate
itself consults no store, which the embedding shows by taking no store
argument. -/

/-- The gate's observable outcome: either the request is failed with
401 Unauthorized and the chain aborted (`c.Abort()` — the downstream
handler never runs), or the resolved identity is stored in the request
context (`user_id`, `user_email`) and the chain continues (`c.Next()`). -/
inductive AuthOutcome where
  | unauthenticated (msg : String)
  | authenticated (userID : Nat) (email : String)
deriving DecidableEq, Repr

/-- Go `strings.SplitN(s, " ", 2)`: split at the first space only —
`[s]` when `s` has no space, otherwise the part before the first space
and everything after it. -/
def GoSplitN2Space (s : List Char) : List (List Char) :=
  if ' ' ∈ s then
    [s.takeWhile (fun c => ¬ c = ' '), (s.dropWhile (fun c => ¬ c = ' ')).tail]
  else [s]

/-- `middleware.AuthMiddleware` (auth.go lines 11–45): empty header →
401 "Authorization header required"; split at the first space — not
exactly two parts, or first part not case-insensitively `bearer` → 401
"Invalid authorization format. Use: Bearer <token>"; token fails
verification → 401 "Invalid or expired token"; otherwise store the
claims' user ID and email in the context and continue. -/
def AuthMiddleware (validate : List Char → Except String JWTClaims)
    (header : List Char) : AuthOutcome :=
  if header = [] then
    AuthOutcome.unauthenticated "Authorization header required"
  else
    match GoSplitN2Space header with
    | [scheme, tok] =>
      if scheme.map Char.toLower = "bearer".toList then
        match validate tok with
        | Except.error _ =>
          AuthOutcome.unauthenticated "Invalid or expired token"
        | Except.ok claims =>
          AuthOutcome.authenticated claims.userID claims.email
      else
        AuthOutcome.unauthenticated
          "Invalid authorization format. Use: Bearer <token>"
    | _ =>
      AuthOutcome.unauthenticated
        "Invalid authorization format. Use: Bearer <token>"

/-! ## Concrete fixtures used to instantiate the theorems below -/

/-- A concrete manager configuration (the one `tests/auth_test.go`
builds: `NewJWTManager("test-secret", time.Hour, "test")`, with the TTL
in seconds). -/
def mW : JWTManager := ⟨"test-secret", 3600, "test"⟩

/-- A concrete stand-in for bcrypt hashing (the embedding treats the
hasher as an arbitrary parameter; any function instantiates it). -/
def hashW : String → String := fun p => "bcrypt$" ++ p

/-- The matching stand-in for bcrypt verification: candidate hashes to
the stored hash. -/
def verifyW : String → String → Bool := fun h p => h = hashW p

/-- A concrete todo owned by user 2, used to instantiate theorems. -/
def todoW : Todo :=
  { id := 1, title := "t", description := "d", completed := false,
    priority := "medium", dueDate := none, userID := 2 }

/-- The concrete claims `mW` embeds in a token issued at instant 0 for
user 1 / `a@x.com`. -/
def claimsW : JWTClaims :=
  { userID := 1, email := "a@x.com", issuer := "test", issuedAt := 0,
    notBefore := 0, expiresAt := 3600 }

/-- A concrete partial update: new title, mark completed, everything
else not supplied. -/
def reqW : UpdateTodoRequest :=
  { title := some "new", description := none, completed := some true,
    priority := none, dueDate := none }

/-! ## Theorems -/

/-- Helper: `takeWhile (≠ ' ')` recovers the space-free part before an
explicit space separator. -/
theorem takeWhile_nonspace_append (scheme tok : List Char)
    (h : ' ' ∉ scheme) :
    (scheme ++ ' ' :: tok).takeWhile (fun c => ¬ c = ' ') = scheme := by
  induction scheme with
  | nil => simp
  | cons a s ih =>
    simp only [List.mem_cons, not_or] at h
    simpa [List.takeWhile_cons, Ne.symm h.1, h.1] using ih h.2

/-- Helper: `dropWhile (≠ ' ')` reaches the first space separator. -/
theorem dropWhile_nonspace_append (scheme tok : List Char)
    (h : ' ' ∉ scheme) :
    (scheme ++ ' ' :: tok).dropWhile (fun c => ¬ c = ' ') = ' ' :: tok := by
  induction scheme with
  | nil => simp
  | cons a s ih =>
    simp only [List.mem_cons, not_or] at h
    simpa [List.dropWhile_cons, Ne.symm h.1, h.1] using ih h.2

/-- Helper: when a list contains a space, `dropWhile (≠ ' ')` produces a
list whose head is that first space. -/
theorem dropWhile_space_cons (l : List Char) (h : ' ' ∈ l) :
    l.dropWhile (fun c => ¬ c = ' ') =
      ' ' :: (l.dropWhile (fun c => ¬ c = ' ')).tail := by
  induction l with
  | nil => simp at h
  | cons a s ih =>
    by_cases ha : a = ' '
    · subst ha
      simp [List.dropWhile_cons]
    · have hs : ' ' ∈ s := by
        rcases List.mem_cons.mp h with h1 | h1
        · exact absurd h1.symm ha
        · exact h1
      simpa [List.dropWhile_cons, ha] using ih hs

/-- Helper: splitting a header of the shape `scheme ++ " " ++ rest` at
the first space yields exactly those two parts. -/
theorem goSplitN2Space_append (scheme tok : List Char) (h : ' ' ∉ scheme) :
    GoSplitN2Space (scheme ++ ' ' :: tok) = [scheme, tok] := by
  unfold GoSplitN2Space
  rw [if_pos (by simp)]
  rw [takeWhile_nonspace_append scheme tok h,
    dropWhile_nonspace_append scheme tok h]
  simp

/-- Helper: conversely, a two-part split means the input was the first
part (space-free), one space, and the remainder. -/
theorem goSplitN2Space_eq_pair (header scheme tok : List Char)
    (h : GoSplitN2Space header = [scheme, tok]) :
    ' ' ∉ scheme ∧ header = scheme ++ ' ' :: tok := by
  unfold GoSplitN2Space at h
  by_cases hmem : ' ' ∈ header
  · rw [if_pos hmem] at h
    simp only [List.cons.injEq, and_true] at h
    obtain ⟨hscheme, htok⟩ := h
    constructor
    · intro hmem'
      rw [← hscheme] at hmem'
      have := List.mem_takeWhile_imp hmem'
      simp at this
    · conv_lhs => rw [← List.takeWhile_append_dropWhile
        (p := fun c => ¬ c = ' ') (l := header)]
      rw [dropWhile_space_cons header hmem, hscheme, htok]
  · rw [if_neg hmem] at h
    simp at h

/-- Claim C6: the Authorization Gate admits a request exactly when the
header decomposes as a scheme that lowercases to `bearer`, one space,
and a token the verifier accepts; the identity it injects is the one in
the verified claims (identifier and email). In every other case the
outcome is `unauthenticated`, which aborts the chain
(`AuthOutcome` has no third alternative, and the gate takes no store
argument: it performs no persistence lookup). -/
theorem AuthMiddleware_authenticated_iff
    (validate : List Char → Except String JWTClaims)
    (header : List Char) (uid : Nat) (em : String) :
    AuthMiddleware validate header = AuthOutcome.authenticated uid em ↔
      ∃ scheme tok, header = scheme ++ ' ' :: tok ∧ ' ' ∉ scheme ∧
        scheme.map Char.toLower = "bearer".toList ∧
        ∃ c, validate tok = Except.ok c ∧ c.userID = uid ∧ c.email = em := by
  constructor
  · intro h
    by_cases hemp : header = []
    · simp [AuthMiddleware, hemp] at h
    · rcases hsp : GoSplitN2Space header with _ | ⟨scheme, _ | ⟨tok, _ | _⟩⟩ <;>
        simp only [AuthMiddleware, hemp, if_false, hsp] at h
      · simp at h
      · simp at h
      · by_cases hlow : scheme.map Char.toLower = ['b', 'e', 'a', 'r', 'e', 'r']
        · rcases hv : validate tok with e | c <;> simp [hlow, hv] at h
          obtain ⟨hns, hdec⟩ := goSplitN2Space_eq_pair header scheme tok hsp
          exact ⟨scheme, tok, hdec, hns, hlow, c, hv, h.1, h.2⟩
        · simp [hlow] at h
      · simp at h
  · rintro ⟨scheme, tok, rfl, hns, hlow, c, hv, rfl, rfl⟩
    have hemp : ¬ scheme ++ ' ' :: tok = [] := by simp
    simp [AuthMiddleware, hemp, goSplitN2Space_append scheme tok hns, hlow, hv]

/-- Claim C1: for a caller who owns no todo with the requested ID —
whether the ID belongs to someone else or to nobody — `GetByID`,
`Update` and `Delete` all fail with the one `todoNotFoundMsg` outcome,
and the outcome on an ID owned by another user is equal to the outcome
on an ID for which no todo exists at all. The lookup is the single
combined predicate `TodoRepository.FindByIDAndUserID`. -/
theorem ownership_scoped_notfound (db : List Todo)
    (todoID otherID callerID : Nat) (req : UpdateTodoRequest)
    (hOwned : ∀ t ∈ db, t.id = todoID → ¬ t.userID = callerID)
    (hAbsent : ∀ t ∈ db, ¬ t.id = otherID) :
    TodoService.GetByID db todoID callerID = Except.error todoNotFoundMsg ∧
    TodoService.Update db todoID callerID req = Except.error todoNotFoundMsg ∧
    TodoService.Delete db todoID callerID = Except.error todoNotFoundMsg ∧
    TodoService.GetByID db otherID callerID =
      TodoService.GetByID db todoID callerID ∧
    TodoService.Update db otherID callerID req =
      TodoService.Update db todoID callerID req ∧
    TodoService.Delete db otherID callerID =
      TodoService.Delete db todoID callerID := by
  have hfind : TodoRepository.FindByIDAndUserID db todoID callerID = none := by
    rw [TodoRepository.FindByIDAndUserID, List.find?_eq_none]
    intro t ht
    simp only [decide_eq_true_eq, not_and]
    exact hOwned t ht
  have hfind' : TodoRepository.FindByIDAndUserID db otherID callerID = none := by
    rw [TodoRepository.FindByIDAndUserID, List.find?_eq_none]
    intro t ht
    simp only [decide_eq_true_eq, not_and]
    intro hid
    exact absurd hid (hAbsent t ht)
  refine ⟨?_, ?_, ?_, ?_, ?_, ?_⟩ <;>
    simp [TodoService.GetByID, TodoService.Update, TodoService.Delete,
      hfind, hfind']

/-- Witness for C1 at a concrete store: `todoW` (ID 1, owned by user 2)
queried by user 1, and the fresh ID 99. -/
theorem ownership_scoped_notfound_witness :
    TodoService.GetByID [todoW] 1 1 = Except.error todoNotFoundMsg ∧
    TodoService.Update [todoW] 1 1 ⟨none, none, none, none, none⟩ =
      Except.error todoNotFoundMsg ∧
    TodoService.Delete [todoW] 1 1 = Except.error todoNotFoundMsg ∧
    TodoService.GetByID [todoW] 99 1 = TodoService.GetByID [todoW] 1 1 ∧
    TodoService.Update [todoW] 99 1 ⟨none, none, none, none, none⟩ =
      TodoService.Update [todoW] 1 1 ⟨none, none, none, none, none⟩ ∧
    TodoService.Delete [todoW] 99 1 = TodoService.Delete [todoW] 1 1 :=
  ownership_scoped_notfound [todoW] 1 99 1 ⟨none, none, none, none, none⟩
    (by decide) (by decide)



/-- Helper: a token whose declared signing method is outside the HMAC
family is rejected by the keyfunc with `errKeyfuncInvalidMethod`. -/
theorem validateToken_wrong_alg (m : JWTManager) (now : Int) (alg : String)
    (payload : JWTClaims) (sig : MacTag) (halg : ¬ alg ∈ hmacAlgs) :
    m.ValidateToken now (Token.wellFormed alg payload sig) =
      Except.error errKeyfuncInvalidMethod := by
  simp [JWTManager.ValidateToken, halg]

/-- Helper: a token whose signature does not recompute from the
configured secret is rejected with `errTokenSignatureInvalid`. -/
theorem validateToken_wrong_sig (m : JWTManager) (now : Int) (alg : String)
    (payload : JWTClaims) (sig : MacTag) (hmem : alg ∈ hmacAlgs)
    (hsig : ¬ sig = ⟨m.secret, alg, payload⟩) :
    m.ValidateToken now (Token.wellFormed alg payload sig) =
      Except.error errTokenSignatureInvalid := by
  simp [JWTManager.ValidateToken, hmem]
  intro h
  exact absurd h hsig

/-- Helper: verification never succeeds on a token whose validity
window does not contain the current instant, whatever its algorithm or
signature (the error then names one of the failing checks). -/
theorem validateToken_outside_window (m : JWTManager) (now : Int)
    (alg : String) (payload : JWTClaims) (sig : MacTag)
    (htime : now < payload.notBefore ∨ payload.expiresAt < now) :
    (m.ValidateToken now (Token.wellFormed alg payload sig)).isOk = false := by
  by_cases h1 : alg ∈ hmacAlgs
  · by_cases h2 : sig = ⟨m.secret, alg, payload⟩
    · by_cases h3 : payload.expiresAt < now
      · simp [JWTManager.ValidateToken, h1, h2, h3, Except.isOk,
          Except.toBool]
      · have h4 : now < payload.notBefore := by
          rcases htime with h | h
          · exact h
          · exact absurd h h3
        simp [JWTManager.ValidateToken, h1, h2, h3, h4, Except.isOk,
          Except.toBool]
    · simp [validateToken_wrong_sig m now alg payload sig h1 h2, Except.isOk,
        Except.toBool]
  · simp [validateToken_wrong_alg m now alg payload sig h1, Except.isOk,
      Except.toBool]

/-- Claim C9: a token issued by a manager configured with ttl = -1 is
rejected at every verification instant (its expires-at lies strictly
before its not-before, so the validity window is empty — immediately
expired); and in general verification never succeeds on a token whose
window does not contain the current instant (before not-before or
after expires-at). -/
theorem negative_ttl_always_invalid (secret issuer : String) (uid : Nat)
    (email : String) (now t : Int) :
    ((JWTManager.ValidateToken ⟨secret, -1, issuer⟩ t
      (JWTManager.GenerateToken ⟨secret, -1, issuer⟩ now uid email)).isOk =
        false) ∧
    (∀ (m : JWTManager) (alg : String) (payload : JWTClaims) (sig : MacTag),
      t < payload.notBefore ∨ payload.expiresAt < t →
      (m.ValidateToken t (Token.wellFormed alg payload sig)).isOk =
        false) := by
  constructor
  · refine validateToken_outside_window _ _ _ _ _ ?_
    show t < now ∨ now + -1 < t
    omega
  · intro m alg payload sig htime
    exact validateToken_outside_window m t alg payload sig htime

/-- Witness for C9: the concretely misconfigured manager (ttl -1)
issues at instant 7 a token that verification rejects both at instant
7 and at instant 6, and a concrete stale token is rejected outside its
window. -/
theorem negative_ttl_always_invalid_witness :
    ((JWTManager.ValidateToken ⟨"test-secret", -1, "test"⟩ 7
      (JWTManager.GenerateToken ⟨"test-secret", -1, "test"⟩ 7 1
        "a@x.com")).isOk = false) ∧
    ((JWTManager.ValidateToken ⟨"test-secret", -1, "test"⟩ 6
      (JWTManager.GenerateToken ⟨"test-secret", -1, "test"⟩ 7 1
        "a@x.com")).isOk = false) ∧
    ((mW.ValidateToken 9999 (Token.wellFormed hmacAlg claimsW
        ⟨"test-secret", hmacAlg, claimsW⟩)).isOk = false) :=
  ⟨(negative_ttl_always_invalid "test-secret" "test" 1 "a@x.com" 7 7).1,
    (negative_ttl_always_invalid "test-secret" "test" 1 "a@x.com" 7 6).1,
    (negative_ttl_always_invalid "test-secret" "test" 1 "a@x.com" 7 9999).2
      mW hmacAlg claimsW ⟨"test-secret", hmacAlg, claimsW⟩ (by decide)⟩

/-- Claim C4: login with an email absent from the credential store and
login with a present email but a password that fails bcrypt
verification both return the very same `invalidCredentialsMsg` error —
the two runs have equal observable results. -/
theorem login_uniform_invalid_credentials (m : JWTManager) (now : Int)
    (bverify : String → String → Bool) (db : List User)
    (r₁ r₂ : LoginRequest) (u : User)
    (h₁ : UserRepository.FindByEmail db r₁.email = none)
    (h₂ : UserRepository.FindByEmail db r₂.email = some u)
    (h₃ : bverify u.password r₂.password = false) :
    AuthService.Login m now bverify db r₁ =
      Except.error invalidCredentialsMsg ∧
    AuthService.Login m now bverify db r₂ =
      Except.error invalidCredentialsMsg ∧
    AuthService.Login m now bverify db r₁ =
      AuthService.Login m now bverify db r₂ := by
  have e₁ : AuthService.Login m now bverify db r₁ =
      Except.error invalidCredentialsMsg := by
    simp [AuthService.Login, h₁]
  have e₂ : AuthService.Login m now bverify db r₂ =
      Except.error invalidCredentialsMsg := by
    simp [AuthService.Login, h₂, h₃]
  exact ⟨e₁, e₂, e₁.trans e₂.symm⟩

/-- Witness for C4: a store holding only `a@x.com`, queried with the
unknown `b@x.com` and with `a@x.com` plus a wrong password. -/
theorem login_uniform_invalid_credentials_witness :
    AuthService.Login mW 0 verifyW [⟨1, "a@x.com", hashW "right"⟩]
      ⟨"b@x.com", "right"⟩ = Except.error invalidCredentialsMsg ∧
    AuthService.Login mW 0 verifyW [⟨1, "a@x.com", hashW "right"⟩]
      ⟨"a@x.com", "wrong"⟩ = Except.error invalidCredentialsMsg ∧
    AuthService.Login mW 0 verifyW [⟨1, "a@x.com", hashW "right"⟩]
        ⟨"b@x.com", "right"⟩ =
      AuthService.Login mW 0 verifyW [⟨1, "a@x.com", hashW "right"⟩]
        ⟨"a@x.com", "wrong"⟩ :=
  login_uniform_invalid_credentials mW 0 verifyW
    [⟨1, "a@x.com", hashW "right"⟩] ⟨"b@x.com", "right"⟩
    ⟨"a@x.com", "wrong"⟩ ⟨1, "a@x.com", hashW "right"⟩
    (by decide) (by decide) (by decide)

/-- Claim C5: registration of a taken email fails with the
`emailTakenMsg` conflict, returns no response (hence no token) and
leaves the credential store exactly as it was; every failing
registration leaves the store unchanged; and every successful
registration returns a token bound to the identifier and email of a
record that is persisted in the resulting store (persist-then-issue:
no token exists without its persisted identity). -/
theorem register_persist_then_issue (m : JWTManager) (now : Int)
    (bhash : String → String) (db : List User) (req : RegisterRequest) :
    (UserRepository.ExistsByEmail db req.email = true →
      AuthService.Register m now bhash db req =
        (Except.error emailTakenMsg, db)) ∧
    (∀ e db', AuthService.Register m now bhash db req =
      (Except.error e, db') → db' = db) ∧
    (∀ resp db', AuthService.Register m now bhash db req =
        (Except.ok resp, db') →
      ∃ u : User, u ∈ db' ∧ u.email = req.email ∧
        u.password = bhash req.password ∧
        resp.user = u.toResponse ∧
        resp.token = m.GenerateToken now u.id u.email) := by
  refine ⟨?_, ?_, ?_⟩
  · intro hex
    simp [AuthService.Register, AuthService.RegisterWith, hex]
  · intro e db' h
    by_cases hex : UserRepository.ExistsByEmail db req.email
    · simp [AuthService.Register, AuthService.RegisterWith, hex] at h
      exact h.2.symm
    · simp [AuthService.Register, AuthService.RegisterWith, hex,
        UserRepository.Create] at h
  · intro resp db' h
    by_cases hex : UserRepository.ExistsByEmail db req.email
    · simp [AuthService.Register, AuthService.RegisterWith, hex] at h
    · simp [AuthService.Register, AuthService.RegisterWith, hex,
        UserRepository.Create] at h
      refine ⟨⟨db.length + 1, req.email, bhash req.password⟩, ?_, rfl, rfl,
        ?_, ?_⟩
      · rw [← h.2]
        simp
      · rw [← h.1]
      · rw [← h.1]

/-- Witness for C5: the taken-email conflict on a one-user store, the
unchanged store on that failure, and the persisted identity behind the
token of a successful registration into the empty store. -/
theorem register_persist_then_issue_witness :
    (AuthService.Register mW 0 hashW [⟨1, "a@x.com", hashW "p"⟩]
        ⟨"a@x.com", "q"⟩ =
      (Except.error emailTakenMsg, [⟨1, "a@x.com", hashW "p"⟩])) ∧
    (∃ u : User, u ∈ [⟨1, "a@x.com", hashW "p"⟩] ∧ u.email = "a@x.com" ∧
      u.password = hashW "p" ∧
      ({ user := ⟨1, "a@x.com"⟩,
         token := mW.GenerateToken 0 1 "a@x.com" } : AuthResponse).user =
        u.toResponse ∧
      ({ user := ⟨1, "a@x.com"⟩,
         token := mW.GenerateToken 0 1 "a@x.com" } : AuthResponse).token =
        mW.GenerateToken 0 u.id u.email) :=
  ⟨(register_persist_then_issue mW 0 hashW [⟨1, "a@x.com", hashW "p"⟩]
      ⟨"a@x.com", "q"⟩).1 (by decide),
    (register_persist_then_issue mW 0 hashW [] ⟨"a@x.com", "p"⟩).2.2
      { user := ⟨1, "a@x.com"⟩, token := mW.GenerateToken 0 1 "a@x.com" }
      [⟨1, "a@x.com", hashW "p"⟩] rfl⟩

/-- Claim C7, evaluated on the code at the racing input it concerns:
the pre-check passes against the store it read (empty), a concurrent
registration of `alice@example.com` commits before the insert, the
insert raises the persistence layer's uniqueness-violation error,
`Register` returns that error verbatim (part_000 lines 67–69), and the
handler's string comparison (part_001 line 41) maps it to the generic
500 internal outcome — not to the 409 conflict (`EmailTaken`) outcome
the claim requires. -/
theorem register_race_misreported_internal :
    AuthService.RegisterWith mW 0 hashW []
        [⟨1, "alice@example.com", hashW "password123"⟩]
        ⟨"alice@example.com", "password123"⟩ =
      (Except.error uniqueViolationMsg,
        [⟨1, "alice@example.com", hashW "password123"⟩]) ∧
    AuthHandler.RegisterOutcome (Except.error uniqueViolationMsg) =
      RegisterHttpOutcome.internalErr "Failed to register user" ∧
    ¬ AuthHandler.RegisterOutcome (Except.error uniqueViolationMsg) =
      RegisterHttpOutcome.conflict emailTakenMsg :=
  ⟨rfl, rfl, by decide⟩

/-- Claim C8: after a successful registration, registering the same
email again yields the `emailTakenMsg` conflict, leaves the store as it
was, and the store holds exactly one Identity with that email. -/
theorem register_twice_email_taken (m : JWTManager) (now now' : Int)
    (bhash : String → String) (db db₁ : List User) (req : RegisterRequest)
    (resp : AuthResponse)
    (h : AuthService.Register m now bhash db req = (Except.ok resp, db₁)) :
    AuthService.Register m now' bhash db₁ req =
      (Except.error emailTakenMsg, db₁) ∧
    (db₁.filter (fun u => u.email = req.email)).length = 1 := by
  by_cases hex : UserRepository.ExistsByEmail db req.email
  · simp [AuthService.Register, AuthService.RegisterWith, hex] at h
  · have hdb₁ :
        db₁ = db ++ [⟨db.length + 1, req.email, bhash req.password⟩] := by
      simp [AuthService.Register, AuthService.RegisterWith, hex,
        UserRepository.Create] at h
      exact h.2.symm
    subst hdb₁
    have hmem : ∀ u ∈ db, ¬ u.email = req.email := by
      intro u hu
      simp [UserRepository.ExistsByEmail, List.any_eq_true] at hex
      exact hex u hu
    constructor
    · have hex₁ : UserRepository.ExistsByEmail
          (db ++ [⟨db.length + 1, req.email, bhash req.password⟩])
          req.email = true := by
        simp [UserRepository.ExistsByEmail]
      simp [AuthService.Register, AuthService.RegisterWith, hex₁]
    · rw [List.filter_append]
      have hnil : db.filter (fun u => decide (u.email = req.email)) = [] := by
        rw [List.filter_eq_nil_iff]
        intro u hu
        simpa using hmem u hu
      simp [hnil]

/-- Witness for C8: registering `a@x.com` into the empty store succeeds;
the second registration conflicts and exactly one stored Identity
carries that email. -/
theorem register_twice_email_taken_witness :
    AuthService.Register mW 1 hashW [⟨1, "a@x.com", hashW "p"⟩]
        ⟨"a@x.com", "p"⟩ =
      (Except.error emailTakenMsg, [⟨1, "a@x.com", hashW "p"⟩]) ∧
    (([⟨1, "a@x.com", hashW "p"⟩] : List User).filter
      (fun u => u.email = "a@x.com")).length = 1 :=
  register_twice_email_taken mW 0 1 hashW [] [⟨1, "a@x.com", hashW "p"⟩]
    ⟨"a@x.com", "p"⟩
    { user := ⟨1, "a@x.com"⟩, token := mW.GenerateToken 0 1 "a@x.com" } rfl

/-- Claim C10: a successful `Update` saves exactly the found todo with
the supplied fields overwritten: identifier and owning user ID are
unchanged, every field whose request entry is absent keeps its prior
value, and every supplied field takes the supplied value. -/
theorem update_frame (db : List Todo) (todoID userID : Nat)
    (req : UpdateTodoRequest) (t : Todo)
    (h : TodoRepository.FindByIDAndUserID db todoID userID = some t) :
    TodoService.Update db todoID userID req =
      Except.ok ((TodoService.applyUpdates t req).toResponse,
        TodoRepository.Update db (TodoService.applyUpdates t req)) ∧
    (TodoService.applyUpdates t req).id = t.id ∧
    (TodoService.applyUpdates t req).userID = t.userID ∧
    (req.title = none → (TodoService.applyUpdates t req).title = t.title) ∧
    (req.description = none →
      (TodoService.applyUpdates t req).description = t.description) ∧
    (req.completed = none →
      (TodoService.applyUpdates t req).completed = t.completed) ∧
    (req.priority = none →
      (TodoService.applyUpdates t req).priority = t.priority) ∧
    (req.dueDate = none →
      (TodoService.applyUpdates t req).dueDate = t.dueDate) ∧
    (∀ v, req.title = some v → (TodoService.applyUpdates t req).title = v) ∧
    (∀ v, req.description = some v →
      (TodoService.applyUpdates t req).description = v) ∧
    (∀ v, req.completed = some v →
      (TodoService.applyUpdates t req).completed = v) ∧
    (∀ v, req.priority = some v →
      (TodoService.applyUpdates t req).priority = v) ∧
    (∀ v, req.dueDate = some v →
      (TodoService.applyUpdates t req).dueDate = some v) := by
  refine ⟨by simp [TodoService.Update, h], ?_⟩
  obtain ⟨tt, td, tc, tp, tdd⟩ := req
  cases tt <;> cases td <;> cases tc <;> cases tp <;> cases tdd <;>
    simp [TodoService.applyUpdates]

/-- Witness for C10: updating `todoW` (owned by user 2) with `reqW`
(title and completed supplied, the rest absent) keeps ID, owner,
description, priority and due date, and overwrites title and completed. -/
theorem update_frame_witness :
    TodoService.Update [todoW] 1 2 reqW =
      Except.ok ((TodoService.applyUpdates todoW reqW).toResponse,
        TodoRepository.Update [todoW] (TodoService.applyUpdates todoW reqW)) ∧
    (TodoService.applyUpdates todoW reqW).id = todoW.id ∧
    (TodoService.applyUpdates todoW reqW).userID = todoW.userID ∧
    (reqW.title = none →
      (TodoService.applyUpdates todoW reqW).title = todoW.title) ∧
    (reqW.description = none →
      (TodoService.applyUpdates todoW reqW).description = todoW.description) ∧
    (reqW.completed = none →
      (TodoService.applyUpdates todoW reqW).completed = todoW.completed) ∧
    (reqW.priority = none →
      (TodoService.applyUpdates todoW reqW).priority = todoW.priority) ∧
    (reqW.dueDate = none →
      (TodoService.applyUpdates todoW reqW).dueDate = todoW.dueDate) ∧
    (∀ v, reqW.title = some v →
      (TodoService.applyUpdates todoW reqW).title = v) ∧
    (∀ v, reqW.description = some v →
      (TodoService.applyUpdates todoW reqW).description = v) ∧
    (∀ v, reqW.completed = some v →
      (TodoService.applyUpdates todoW reqW).completed = v) ∧
    (∀ v, reqW.priority = some v →
      (TodoService.applyUpdates todoW reqW).priority = v) ∧
    (∀ v, reqW.dueDate = some v →
      (TodoService.applyUpdates todoW reqW).dueDate = some v) :=
  update_frame [todoW] 1 2 reqW todoW rfl
